import Mathlib

/-!
Verification of the Electric Imp Sublime plugin log-streaming engine
(`imp_developer.py`): a shallow embedding of the `LogManager` session state
machine, its event-stream reader, the log deduplication walk, the command
prerequisite chain of `BaseElectricImpCommand.run`, and the
`Preprocessor.get_error_location` line-table lookup, together with theorems
settling the specified properties.

Modelling conventions:
- machine time is an integer count of whole seconds; `datetime.datetime.now()`
  becomes an explicit `now : Int` parameter, and for a Python `timedelta`
  value `d = now - t`, `d.seconds` (the sub-day seconds component, not the
  total) is `(now - t).emod 86400`;
- the console sink (`Env.ui_manager.write_to_console`) is modelled as the
  list of raw log strings handed to `LogManager.write_to_console`, in order;
  the timestamp formatting and log-line parsing applied on the way out are
  presentation and are not modelled;
- commands scheduled through `sublime`/`window.run_command` and calls into
  the `ImpCentral` cloud gateway are recorded in ghost trace fields
  (`scheduled`, `gw_calls`) of the state, mirroring the call sites exactly;
- the gateway collaborator (device list, stream creation, socket opening,
  device attaching) and the bytes available on the open socket are supplied
  by a `Gateway` record of oracle inputs, one per tick.
-/

namespace ImpDev

/-- `PL_KEEP_ALIVE_TIMEOUT = 60` (seconds), from the constants block. -/
def PL_KEEP_ALIVE_TIMEOUT : Int := 60

/-- `PL_LOGS_MAX_PER_REQUEST = 30`, maximum logs to read per request. -/
def PL_LOGS_MAX_PER_REQUEST : Int := 30

/-- `ImpRequest.INVALID_CREDENTIALS = 1`. -/
def INVALID_CREDENTIALS : Int := 1

/-- `ImpRequest.WRONG_INPUT = 2`. -/
def WRONG_INPUT : Int := 2

/- String resources come from `plugin_resources.strings`, which is outside
the single source file; their exact text is irrelevant to the claims, which
only count occurrences, so they are represented by distinct stand-ins. -/

/-- Stand-in for `STR_MESSAGE_LOG_STREAM_REQUESTED`. -/
def STR_MESSAGE_LOG_STREAM_REQUESTED : String := "Log stream is requested"

/-- Stand-in for `STR_MESSAGE_LOG_STREAM_STARTED`. -/
def STR_MESSAGE_LOG_STREAM_STARTED : String := "Log stream is started"

/-- Stand-in for `STR_MESSAGE_LOG_STREAM_STOPPED`. -/
def STR_MESSAGE_LOG_STREAM_STOPPED : String := "Log stream is stopped"

/-- Stand-in for `STR_MESSAGE_LOG_STREAM_RESTART`. -/
def STR_MESSAGE_LOG_STREAM_RESTART : String := "Log stream is restarting"

/-- Stand-in for `STR_MESSAGE_LOG_STREAM_NOT_STARTED`. -/
def STR_MESSAGE_LOG_STREAM_NOT_STARTED : String := "Log stream is not started"

/-- Stand-in for `STR_MESSAGE_ASSIGN_DEVICE`. -/
def STR_MESSAGE_ASSIGN_DEVICE : String := "Please assign a device to the device group"

/-- The literal appended by `__read_logs` on a `data: closed` event. -/
def closedNotice : String := "Stream was closed by server event.\n"

/-- An `ImpCentral` API error dictionary; only the `code` key is inspected
by `LogManager.check_imp_error`. -/
structure ImpError where
  code : Int
deriving DecidableEq

/-- A device item as returned by `list_devices`: its id, and
`relationships.devicegroup.id` when the `devicegroup` relationship is
present (`none` when absent). -/
structure Device where
  id : String
  devicegroupId : Option String
deriving DecidableEq

namespace LogManager

/-- The four supported states of `LogManager` (`self.IDLE` .. `self.FAIL`). -/
inductive Mode where
  | IDLE
  | INIT
  | POLL
  | FAIL
deriving DecidableEq

/-- The mutable state of a `LogManager` instance.  `sock = true` models a
non-null socket whose `fp` is open; `scheduled` and `gw_calls` are ghost
traces of `run_command` schedulings and `ImpCentral` gateway calls. -/
structure State where
  poll_url : Option String
  last_shown_log : Option String
  sock : Bool
  devices : List Device
  state : Mode
  update_log_started : Bool
  keep_alive : Option Int
  console : List String
  scheduled : List (String × Option String)
  gw_calls : List String
deriving DecidableEq

/-- `LogManager.__init__`: no poll url, no last shown log, no socket, no
devices, state `IDLE`, no pending update, no keep-alive timer. -/
def initState : State :=
  { poll_url := none
    last_shown_log := none
    sock := false
    devices := []
    state := Mode.IDLE
    update_log_started := false
    keep_alive := none
    console := []
    scheduled := []
    gw_calls := [] }

/-- `LogManager.write_to_console(log, ...)`: the raw log string reaches the
console sink (parsing/formatting is presentation and not modelled). -/
def write_to_console (st : State) (log : String) : State :=
  { st with console := st.console ++ [log] }

/-- `LogManager.start`: from `IDLE` move to `INIT` and write the
stream-requested notice; from any other state only a debug line is logged
and nothing changes. -/
def start (st : State) : State :=
  if st.state = Mode.IDLE then
    write_to_console { st with state := Mode.INIT } STR_MESSAGE_LOG_STREAM_REQUESTED
  else
    st

/-- `LogManager.stop(is_restart)`: from `POLL` with restart write the
restart notice (a deferred `update_log_windows(False)` is scheduled, which
is outside this model); from `POLL` without restart write the stopped
notice; from `INIT` write the not-started notice; the state always ends
`IDLE`.  Note: `stop` does not touch the socket. -/
def stop (st : State) (is_restart : Bool) : State :=
  if st.state = Mode.POLL then
    if is_restart then
      { write_to_console st STR_MESSAGE_LOG_STREAM_RESTART with state := Mode.IDLE }
    else
      { write_to_console st STR_MESSAGE_LOG_STREAM_STOPPED with state := Mode.IDLE }
  else if st.state = Mode.INIT then
    { write_to_console st STR_MESSAGE_LOG_STREAM_NOT_STARTED with state := Mode.IDLE }
  else
    { st with state := Mode.IDLE }

/-- `LogManager.reset(is_restart)`: close and null the socket, clear the
poll url, the last shown log and the keep-alive timer, then `stop`. -/
def reset (st : State) (is_restart : Bool) : State :=
  stop
    { st with
        sock := false
        poll_url := none
        last_shown_log := none
        keep_alive := none }
    is_restart

/-- `LogManager.check_imp_error(error)`: returns `False` on no error; on an
`INVALID_CREDENTIALS` error schedules `imp_show_console` with
`cmd_on_complete = "auth"`; returns `True` for every non-null error. -/
def check_imp_error (st : State) (error : Option ImpError) : Bool × State :=
  match error with
  | none => (false, st)
  | some e =>
      if e.code = INVALID_CREDENTIALS then
        (true,
          { st with
              scheduled := st.scheduled ++ [("imp_show_console", some "auth")] })
      else
        (true, st)

/-- The flush of a pending multi-line payload (`if len(log_message) > 0:
logs.append(log_message)`). -/
def flushMsg (logs : List String) (msg : String) : List String :=
  if msg.length > 0 then logs ++ [msg] else logs

/-- The code after the read loop of `LogManager.__read_logs` (lines
2401-2411): a non-empty batch refreshes `keep_alive`; otherwise, with a
timer set, `delta.seconds > PL_KEEP_ALIVE_TIMEOUT` triggers `reset()`.
`delta.seconds` is the sub-day component of the Python `timedelta`,
i.e. `(now - ka).emod 86400`. -/
def readPost (now : Int) (st : State) (logs rem : List String) :
    State × List String × List String :=
  if logs.length > 0 then
    ({ st with keep_alive := some now }, logs, rem)
  else
    match st.keep_alive with
    | some ka =>
        if (now - ka).emod 86400 > PL_KEEP_ALIVE_TIMEOUT then
          (reset st false, logs, rem)
        else
          (st, logs, rem)
    | none => (st, logs, rem)

/-- The line-consuming loop of `LogManager.__read_logs` (lines 2336-2399)
over the lines currently available on the socket.  Arguments mirror the
local variables `next_log`, `next_cmd`, `log_message`, `logs`, `count`.
A blank line breaks the inner for-loop; the outer while-loop then re-enters
it only when `count > 0` and data remains (`select`).  Returns the updated
state, the batch of logs, and the unconsumed lines. -/
def readLoop (now : Int) (st : State) (nl nc : Bool) (msg : String)
    (logs : List String) (count : Int) :
    List String → State × List String × List String
  | [] => readPost now st (flushMsg logs msg) []
  | line :: rest =>
      if line = "event: message\n" then
        readLoop now st true false ""
          (if nl ∧ msg.length > 0 then logs ++ [msg] else logs) (count - 1) rest
      else if line = "event: state_change\n" then
        readLoop now st false true "" (flushMsg logs msg) (count - 1) rest
      else if line = "\n" then
        if count > 0 ∧ rest.length > 0 then
          readLoop now st false false "" (flushMsg logs msg) count rest
        else
          readPost now st (flushMsg logs msg) rest
      else if line = ": keep-alive\n" then
        readLoop now { st with keep_alive := some now } false false ""
          (flushMsg logs msg) count rest
      else if nl then
        readLoop now st true nc
          (if line.startsWith "data:" then msg ++ line.drop 6 else msg ++ line)
          logs count rest
      else if nc then
        if line = "data: closed\n" then
          (reset st false, logs ++ [closedNotice], rest)
        else if line = "data: opened\n" then
          ({ st with keep_alive := some now }, logs, rest)
        else
          readLoop now st false false ""
            (flushMsg (if line ≠ "\n" then logs ++ [line] else logs) msg) count rest
      else
        readLoop now st false nc "" (flushMsg logs msg) count rest

/-- `LogManager.__read_logs` entry: the loop starts with no pending frame,
an empty batch and `count = PL_LOGS_MAX_PER_REQUEST`; only called with an
open socket. -/
def read_logs (now : Int) (st : State) (lines : List String) :
    State × List String × List String :=
  readLoop now st false false "" [] PL_LOGS_MAX_PER_REQUEST lines

/-- Per-tick oracle inputs for `query_logs`: the clock, the lines buffered
on an open socket, the settings value `EI_DEVICE_GROUP_ID`, and the results
of the `ImpCentral` gateway calls in the order they would be made. -/
structure Gateway where
  now : Int
  lines : List String
  deviceGroupId : Option String
  listDevices : List Device × Option ImpError
  createLogStream : String × Option ImpError
  openOk : Bool
  attachResults : List (Option ImpError)
deriving DecidableEq

/-- The attach loop of `query_logs` (lines 2470-2478): every cached device
whose `devicegroup` relationship matches the configured group is attached,
failing on the first attach error.  Returns the state and whether all
attaches succeeded. -/
def attachLoop (dg : String) (st : State) :
    List Device → List (Option ImpError) → State × Bool
  | [], _ => (st, true)
  | d :: ds, errs =>
      if d.devicegroupId = some dg then
        let st1 := { st with gw_calls := st.gw_calls ++ ["attach_device_to_log_stream"] }
        let r := check_imp_error st1 errs.headI
        if r.1 then (r.2, false)
        else attachLoop dg r.2 ds errs.tail
      else attachLoop dg st ds errs

/-- The device-attach step of `query_logs` (lines 2468-2483), entered with
the socket just opened: attach the matching cached devices, failing on the
first attach error, then enter `POLL` and write the started notice. -/
def queryOpenAttach (st4 : State) (gw : Gateway) (dg : String) :
    Option (List String) × State × List String :=
  let a := attachLoop dg st4 st4.devices gw.attachResults
  if ¬a.2 then (none, a.1, gw.lines)
  else
    (some [],
      write_to_console { a.1 with state := Mode.POLL } STR_MESSAGE_LOG_STREAM_STARTED,
      gw.lines)

/-- The socket-opening step of `query_logs` (lines 2461-2466), entered
with the poll url just recorded: open the log stream, returning `None` on
failure. -/
def queryOpenSock (st2 : State) (gw : Gateway) (dg : String) :
    Option (List String) × State × List String :=
  let st3 := { st2 with gw_calls := st2.gw_calls ++ ["open_log_stream"] }
  if ¬gw.openOk then (none, st3, gw.lines)
  else queryOpenAttach { st3 with sock := true } gw dg

/-- The stream-initialisation tail of `query_logs` (lines 2452-2493):
create a log stream, record its id as the poll url, then open and attach.
The two `if log_request_time:` blocks are dead code
(`log_request_time = False`) and are omitted. -/
def queryOpen (st : State) (gw : Gateway) (dg : String) :
    Option (List String) × State × List String :=
  let st1 := { st with gw_calls := st.gw_calls ++ ["create_log_stream"] }
  let r := check_imp_error st1 gw.createLogStream.2
  if r.1 then (none, r.2, gw.lines)
  else queryOpenSock { r.2 with poll_url := some gw.createLogStream.1 } gw dg

/-- The device-resolution step of `query_logs` (lines 2434-2450), entered
on a first connection (no poll url): list the devices of the group,
returning `None` on an error, writing the assign-device notice and
returning `None` on an empty list, and caching the device list before
initialising the stream otherwise. -/
def queryListDevices (st : State) (gw : Gateway) (dg : String) :
    Option (List String) × State × List String :=
  let st1 := { st with gw_calls := st.gw_calls ++ ["list_devices"] }
  let r := check_imp_error st1 gw.listDevices.2
  if r.1 then (none, r.2, gw.lines)
  else if gw.listDevices.1.length = 0 then
    (none, write_to_console r.2 STR_MESSAGE_ASSIGN_DEVICE, gw.lines)
  else
    queryOpen { r.2 with devices := gw.listDevices.1 } gw dg

/-- `LogManager.query_logs`: with an open socket, read available frames;
otherwise initialise the stream for the configured device group, resolving
and caching the device list first when there is no poll url, returning
`None` (and an assign-device notice on an empty device list) on any
failure.  Returns the `query_logs` result, the new state, and the
unconsumed socket lines. -/
def query_logs (st : State) (gw : Gateway) :
    Option (List String) × State × List String :=
  if st.sock then
    let r := read_logs gw.now st gw.lines
    (some r.2.1, r.1, r.2.2)
  else
    match gw.deviceGroupId with
    | none => (none, st, gw.lines)
    | some dg =>
        if st.poll_url = none then queryListDevices st gw dg
        else queryOpen st gw dg

/-- `LogManager.logs_are_equal`. -/
def logs_are_equal (first second : String) : Bool :=
  first == second

/-- The backward scan of `update_logs` (lines 2512-2518): starting from the
end of the batch, find the last record equal to the last shown log.
Returns the index of that last occurrence, if any. -/
def lastEqIdx (l : String) : List String → Option Nat
  | [] => none
  | x :: xs =>
      match lastEqIdx l xs with
      | some j => some (j + 1)
      | none => if logs_are_equal l x then some 0 else none

/-- The index at which the forward emission loop of `update_logs` starts:
one past the matched occurrence of the last shown log, or `0` when there is
no last shown log (Python falsy: `None` or the empty string) or it matches
nowhere. -/
def dedupStart (last : Option String) (logs : List String) : Nat :=
  match last with
  | none => 0
  | some l =>
      if l = "" then 0
      else
        match lastEqIdx l logs with
        | some j => j + 1
        | none => 0

/-- The forward emission loop of `update_logs` (lines 2519-2527): write
every non-empty record to the console, updating the last shown log. -/
def emitLogs (st : State) : List String → State
  | [] => st
  | log :: rest =>
      if log.length = 0 then emitLogs st rest
      else emitLogs { write_to_console st log with last_shown_log := some log } rest

/-- The records of a batch made visible by `update_logs`: the records after
the dedup start point, with empty records skipped. -/
def visibleRecords (last : Option String) (batch : List String) : List String :=
  (batch.drop (dedupStart last batch)).filter (fun s => s.length > 0)

/-- `LogManager.update_logs`: guarded by `update_log_started`; query the
logs, reset on a `None` result, otherwise run the dedup walk and emit. -/
def update_logs (st : State) (gw : Gateway) : State :=
  if st.update_log_started then st
  else
    let st0 := { st with update_log_started := true }
    let q := query_logs st0 gw
    match q.1 with
    | none => { reset q.2.1 false with update_log_started := false }
    | some logs_list =>
        let st1 := emitLogs q.2.1 (logs_list.drop (dedupStart q.2.1.last_shown_log logs_list))
        { st1 with update_log_started := false }

/-- The public operations of `LogManager` named by the invariant claim,
with the oracle inputs a tick would supply. -/
inductive Op where
  | opStart
  | opStop (restart : Bool)
  | opReset (restart : Bool)
  | opQuery (gw : Gateway)
  | opUpdate (gw : Gateway)
deriving DecidableEq

/-- Apply one public operation (for `opQuery`, the state component of the
result). -/
def applyOp (st : State) : Op → State
  | Op.opStart => start st
  | Op.opStop r => stop st r
  | Op.opReset r => reset st r
  | Op.opQuery gw => (query_logs st gw).2.1
  | Op.opUpdate gw => update_logs st gw

/-- Run a sequence of public operations from the initial state. -/
def runOps (ops : List Op) : State :=
  ops.foldl applyOp initState

end LogManager

namespace Command

/-- The fixed ordered prerequisite list of `BaseElectricImpCommand.run`
(lines 952-961), by command name; the paired check methods are supplied
as a predicate on the name. -/
def chainCommands : List String :=
  ["imp_check_old_version",
   "imp_check_nodejs_path",
   "imp_check_builder_path",
   "imp_check_cloud_url",
   "imp_auth",
   "imp_refresh_token",
   "imp_create_new_product",
   "imp_create_new_device_group",
   "imp_load_code"]

/-- The observable outcome of one `run` invocation: the self-continuation
guard returned early, the command action ran, or exactly one remediation
command was invoked with a continuation. -/
inductive RunEffect where
  | guardStop
  | ranAction
  | remediation (cmd : String) (continuation : String)
deriving DecidableEq

/-- The scan of `run` over the prerequisite list (lines 963-973): stop and
run the action at the entry equal to the command itself; advance over a
satisfied check; invoke the first unsatisfied entry with
`cmd_on_complete = name` and stop. -/
def chainScan (name : String) (checks : String → Bool) : List String → RunEffect
  | [] => RunEffect.ranAction
  | x :: xs =>
      if x = name then RunEffect.ranAction
      else if checks x then chainScan name checks xs
      else RunEffect.remediation x name

/-- `BaseElectricImpCommand.run(cmd_on_complete)` (lines 938-974): with a
truthy continuation, return early when it equals the command name
(recursion guard), otherwise run the action; with no continuation, scan
the prerequisite chain. -/
def run (name : String) (cmd_on_complete : Option String) (checks : String → Bool) :
    RunEffect :=
  match cmd_on_complete with
  | some c =>
      if c ≠ "" then
        if c = name then RunEffect.guardStop else RunEffect.ranAction
      else chainScan name checks chainCommands
  | none => chainScan name checks chainCommands

/-- The position of the first chain entry equal to `name`
(the list length when absent): where the scan would stop for the target. -/
def chainPos (name : String) : List String → Nat
  | [] => 0
  | x :: xs => if x = name then 0 else chainPos name xs + 1

/-- The persisted `access-token` entry of the auth settings: `value = none`
models the `access-token-value` key absent, `some v` the key present with
value `v` (`some none` a present null). -/
structure AuthToken where
  value : Option (Option String)
  refreshToken : Option String
deriving DecidableEq

/-- The persisted auth settings; `accessToken = none` models a missing or
empty (falsy) `access-token` dictionary. -/
structure AuthSettings where
  accessToken : Option AuthToken
deriving DecidableEq

/-- `ImpShowConsoleCommand.action` (lines 1890-1916): on the `auth`
continuation, null out the cached access-token value when present, persist
it, and re-run the command itself; otherwise only the deferred
`update_log_windows(False)` is scheduled (outside this model).  Returns the
updated auth settings and the commands invoked through `run_command`. -/
def showConsoleAction (cmd_on_complete : Option String) (auth : AuthSettings) :
    AuthSettings × List String :=
  if cmd_on_complete = some "auth" then
    let auth1 :=
      match auth.accessToken with
      | some tok =>
          if tok.value.isSome then
            { accessToken := some { tok with value := some none } }
          else auth
      | none => auth
    (auth1, ["imp_show_console"])
  else
    (auth, [])

end Command

namespace Preprocessor

/-- A per-source-kind line table as built by `__build_line_table_for`:
an association from `str(generatedLine)` to `(originalFile, originalLine)`. -/
abbrev LineTable := List (String × (String × Int))

/-- Python falsiness of `self.line_table[source_type]`: `None` or an empty
dictionary. -/
def tableFalsy : Option LineTable → Bool
  | none => true
  | some t => t.isEmpty

/-- `Preprocessor.get_error_location` (lines 882-886) for one source kind:
`tbl` is the current table, `buildResult` the table `__build_line_table`
would install (the build reads the file system and is supplied as an
oracle).  A `None` table yields `None`; otherwise the Python subscript
`code_table[str(line)]` yields the entry, or raises `KeyError`
(`Except.error ()`) when the line is unmapped. -/
def get_error_location (tbl buildResult : Option LineTable) (line : Int) :
    Except Unit (Option (String × Int)) :=
  let t := if tableFalsy tbl then buildResult else tbl
  match t with
  | none => Except.ok none
  | some m =>
      match m.lookup (toString line) with
      | some v => Except.ok (some v)
      | none => Except.error ()

end Preprocessor

namespace LogManager

/-- The claimed session/stream invariant: the socket is open exactly in
`POLL`, and a poll url is only held while the socket is open. -/
def invC5 (st : State) : Prop :=
  (st.sock = true ↔ st.state = Mode.POLL) ∧ (st.poll_url.isSome → st.sock = true)

/-- The public operations under which the session/stream invariant is
preserved (`stop` and a bare `query_logs` are the exceptions). -/
def allowedOp : Op → Bool
  | Op.opStop _ => false
  | Op.opQuery _ => false
  | _ => true

/-- Relation between a state and the state a read produces: either the
socket/state/poll-url triple is untouched, or the state was `reset`. -/
def frameOK (st st2 : State) : Prop :=
  (st2.sock = st.sock ∧ st2.state = st.state ∧ st2.poll_url = st.poll_url)
  ∨ (st2.sock = false ∧ st2.poll_url = none ∧ st2.state = Mode.IDLE)

/-- A session in `POLL` with an open stream whose keep-alive timestamp is
the epoch `0`. -/
def stalePoll : State :=
  { initState with sock := true, state := Mode.POLL, keep_alive := some 0 }

/-- A gateway tick on which stream initialisation fully succeeds: one
device in the configured group, stream creation, opening and attach all
succeed, and no data is buffered yet. -/
def gwHappy : Gateway :=
  { now := 0
    lines := []
    deviceGroupId := some "dg"
    listDevices := ([⟨"d1", some "dg"⟩], none)
    createLogStream := ("s1", none)
    openOk := true
    attachResults := [none] }

end LogManager

/-! ## Theorems -/

open LogManager Command Preprocessor

theorem chainPos_le (name : String) (cs : List String) :
    Command.chainPos name cs ≤ cs.length := by
  induction cs with
  | nil => simp [Command.chainPos]
  | cons x xs ih =>
      by_cases h : x = name
      · simp [Command.chainPos, h]
      · simp [Command.chainPos, h]
        omega

theorem chainScan_remediation (name : String) (checks : String → Bool) :
    ∀ (cs : List String) (i : Nat),
      i < Command.chainPos name cs →
      (∀ j, j < Command.chainPos name cs → j ≠ i → checks (cs.getD j "") = true) →
      checks (cs.getD i "") = false →
      Command.chainScan name checks cs =
        RunEffect.remediation (cs.getD i "") name := by
  intro cs
  induction cs with
  | nil => intro i hi; simp [Command.chainPos] at hi
  | cons x xs ih =>
      intro i hi hall hfail
      by_cases hx : x = name
      · simp [Command.chainPos, hx] at hi
      · rw [show Command.chainPos name (x :: xs) = Command.chainPos name xs + 1 by
            simp [Command.chainPos, hx]] at hi hall
        cases i with
        | zero =>
            have hx0 : checks x = false := by simpa using hfail
            simp [Command.chainScan, hx, hx0]
        | succ k =>
            have hx0 : checks x = true := by
              simpa using hall 0 (by omega) (by omega)
            have hrec : Command.chainScan name checks xs =
                RunEffect.remediation (xs.getD k "") name := by
              refine ih k (by omega) ?_ (by simpa using hfail)
              intro j hj hji
              simpa using hall (j + 1) (by omega) (by omega)
            simp [Command.chainScan, hx, hx0, hrec]

theorem chainScan_action (name : String) (checks : String → Bool) :
    ∀ cs : List String,
      (∀ j, j < Command.chainPos name cs → checks (cs.getD j "") = true) →
      Command.chainScan name checks cs = RunEffect.ranAction := by
  intro cs
  induction cs with
  | nil => intro _; rfl
  | cons x xs ih =>
      intro hall
      by_cases hx : x = name
      · simp [Command.chainScan, hx]
      · rw [show Command.chainPos name (x :: xs) = Command.chainPos name xs + 1 by
            simp [Command.chainPos, hx]] at hall
        have hx0 : checks x = true := by simpa using hall 0 (by omega)
        have hrec := ih (fun j hj => by simpa using hall (j + 1) (by omega))
        simp [Command.chainScan, hx, hx0, hrec]

/-- C4: for the fixed ordered prerequisite list, if every check before the
target command position holds except exactly the one at index `i`, then
`run(target)` with no continuation invokes exactly the remediation at
index `i`, once, with continuation equal to the target, and neither any
later remediation nor the target action; if all checks before the target
position hold (scanning always stops at the target entry itself before
evaluating its own predicate), the target action executes — so re-running
after the unmet predicate becomes true advances past index `i` without
re-invoking its remediation. -/
theorem prerequisite_chain_single_unmet (target : String)
    (checks checks' : String → Bool) (i : Nat)
    (hi : i < Command.chainPos target chainCommands)
    (hall : ∀ j, j < Command.chainPos target chainCommands → j ≠ i →
      checks (chainCommands.getD j "") = true)
    (hfail : checks (chainCommands.getD i "") = false)
    (hall' : ∀ j, j < Command.chainPos target chainCommands →
      checks' (chainCommands.getD j "") = true) :
    Command.run target none checks =
      RunEffect.remediation (chainCommands.getD i "") target
    ∧ Command.run target none checks' = RunEffect.ranAction := by
  constructor
  · exact chainScan_remediation target checks chainCommands i hi hall hfail
  · exact chainScan_action target checks' chainCommands hall'

theorem prerequisite_chain_single_unmet_witness :
    Command.run "imp_auth" none (fun c => c != "imp_check_builder_path") =
      RunEffect.remediation "imp_check_builder_path" "imp_auth"
    ∧ Command.run "imp_auth" none (fun _ => true) = RunEffect.ranAction := by
  have h := prerequisite_chain_single_unmet "imp_auth"
    (fun c => c != "imp_check_builder_path") (fun _ => true) 2
    (by decide) (by decide) (by decide) (by decide)
  simpa using h

/-- C9: for every command of the prerequisite chain, `run` invoked with a
continuation equal to the command itself hits the recursion guard and
returns immediately: no action runs and no remediation is invoked, so a
remediation never re-invokes itself as its own continuation. -/
theorem remediation_recursion_guard (name : String) (checks : String → Bool)
    (h : name ∈ chainCommands) :
    Command.run name (some name) checks = RunEffect.guardStop := by
  have hne : name ≠ "" := by
    intro h0
    rw [h0] at h
    revert h
    decide
  simp [Command.run, hne]

theorem remediation_recursion_guard_witness :
    Command.run "imp_auth" (some "imp_auth") (fun _ => true) = RunEffect.guardStop :=
  remediation_recursion_guard "imp_auth" (fun _ => true) (by decide)

/-- C10: `start()` acts only from `IDLE`: from any other state the entire
session state is unchanged and nothing is written; from `IDLE` the state
becomes `INIT` and the stream-requested notice is written exactly once. -/
theorem start_only_from_idle (st : State) :
    (st.state ≠ Mode.IDLE → LogManager.start st = st)
    ∧ (st.state = Mode.IDLE →
        LogManager.start st =
          { st with
              state := Mode.INIT
              console := st.console ++ [STR_MESSAGE_LOG_STREAM_REQUESTED] }) := by
  constructor
  · intro h
    simp [LogManager.start, h]
  · intro h
    simp [LogManager.start, h, write_to_console]

theorem start_only_from_idle_witness :
    LogManager.start { initState with state := Mode.POLL } =
      { initState with state := Mode.POLL }
    ∧ LogManager.start initState =
        { initState with
            state := Mode.INIT
            console := initState.console ++ [STR_MESSAGE_LOG_STREAM_REQUESTED] } :=
  ⟨(start_only_from_idle { initState with state := Mode.POLL }).1 (by decide),
   (start_only_from_idle initState).2 rfl⟩

/-- C7 counterexample: on the table mapping generated line 5 to
`agent.nut:12`, looking up the unmapped line 7 does not return a defined
not-found value — the Python subscript raises `KeyError` (modelled as
`Except.error`), refuting the "never raises an exception" part. -/
theorem error_location_unmapped_raises :
    Preprocessor.get_error_location (some [("5", ("agent.nut", 12))]) none 7 =
      Except.error () := by
  rfl

/-- C7 (amended): for a mapped line `get_error_location` returns exactly
the table entry; for an unmapped line within a non-empty table it raises
`KeyError` rather than returning a not-found value (the caller
`convert_line_numbers` catches the exception and keeps the original
message); when the table is `None` it returns `None`. -/
theorem error_location_lookup (tbl : LineTable) (line : Int) (f : String) (n : Int) :
    (tbl.lookup (toString line) = some (f, n) →
      Preprocessor.get_error_location (some tbl) none line = Except.ok (some (f, n)))
    ∧ (tbl ≠ [] → tbl.lookup (toString line) = none →
      Preprocessor.get_error_location (some tbl) none line = Except.error ())
    ∧ Preprocessor.get_error_location none none line = Except.ok none := by
  refine ⟨?_, ?_, rfl⟩
  · intro h
    have hne : tbl ≠ [] := by
      rintro rfl
      simp [List.lookup] at h
    have hE : tbl.isEmpty = false := by
      cases tbl
      · exact absurd rfl hne
      · rfl
    simp [Preprocessor.get_error_location, tableFalsy, hE, h]
  · intro hne h
    have hE : tbl.isEmpty = false := by
      cases tbl
      · exact absurd rfl hne
      · rfl
    simp [Preprocessor.get_error_location, tableFalsy, hE, h]

theorem error_location_lookup_witness :
    Preprocessor.get_error_location (some [("5", ("agent.nut", 12))]) none 5 =
      Except.ok (some ("agent.nut", 12)) :=
  (error_location_lookup [("5", ("agent.nut", 12))] 5 "agent.nut" 12).1 (by decide)

/-- C6: an `INVALID_CREDENTIALS` error seen by `check_imp_error` is not
retried locally — the only effect is scheduling exactly one
`imp_show_console` invocation with continuation tag `auth`; the show
command run with that continuation reaches its action (the recursion guard
does not fire), and the action nulls the cached access-token value in the
persisted auth settings and re-invokes the original show-console command
exactly once. -/
theorem auth_failure_coupling (st : State) (auth : AuthSettings) (e : ImpError)
    (he : e.code = INVALID_CREDENTIALS) (tok : AuthToken)
    (htok : auth.accessToken = some tok) (hval : tok.value.isSome) :
    (check_imp_error st (some e)).1 = true
    ∧ (check_imp_error st (some e)).2 =
        { st with scheduled := st.scheduled ++ [("imp_show_console", some "auth")] }
    ∧ (∀ checks, Command.run "imp_show_console" (some "auth") checks =
        RunEffect.ranAction)
    ∧ (showConsoleAction (some "auth") auth).1 =
        { accessToken := some { tok with value := some none } }
    ∧ (showConsoleAction (some "auth") auth).2 = ["imp_show_console"] := by
  refine ⟨?_, ?_, ?_, ?_, ?_⟩
  · simp [check_imp_error, he]
  · simp [check_imp_error, he]
  · intro checks
    simp [Command.run]
  · simp [showConsoleAction, htok, hval]
  · simp [showConsoleAction]

theorem auth_failure_coupling_witness :
    (check_imp_error initState (some ⟨INVALID_CREDENTIALS⟩)).1 = true
    ∧ (check_imp_error initState (some ⟨INVALID_CREDENTIALS⟩)).2 =
        { initState with scheduled := [("imp_show_console", some "auth")] }
    ∧ (∀ checks, Command.run "imp_show_console" (some "auth") checks =
        RunEffect.ranAction)
    ∧ (showConsoleAction (some "auth")
        ⟨some ⟨some (some "tok"), some "refresh"⟩⟩).1 =
        ⟨some ⟨some none, some "refresh"⟩⟩
    ∧ (showConsoleAction (some "auth")
        ⟨some ⟨some (some "tok"), some "refresh"⟩⟩).2 = ["imp_show_console"] := by
  have h := auth_failure_coupling initState ⟨some ⟨some (some "tok"), some "refresh"⟩⟩
    ⟨INVALID_CREDENTIALS⟩ rfl ⟨some (some "tok"), some "refresh"⟩ rfl rfl
  simpa [initState] using h

theorem reset_fields (st : State) (r : Bool) :
    (reset st r).sock = false ∧ (reset st r).poll_url = none
    ∧ (reset st r).state = Mode.IDLE ∧ (reset st r).last_shown_log = none
    ∧ (reset st r).keep_alive = none := by
  unfold reset stop write_to_console
  split_ifs <;> simp

/-- C2 counterexample: a `POLL` read cycle with an open stream, an empty
batch, and the keep-alive timestamp one day and five seconds in the past —
far more than 60 seconds — does not invoke `reset()`: `__read_logs`
compares `delta.seconds`, the sub-day component of the timedelta (here 5),
against the timeout, so the state is left completely unchanged. -/
theorem keep_alive_watchdog_counterexample :
    (read_logs 86405 stalePoll []).2.1 = []
    ∧ (86405 : Int) - 0 > PL_KEEP_ALIVE_TIMEOUT
    ∧ (read_logs 86405 stalePoll []).1 = stalePoll := by
  decide

/-- C2 (amended): in a read cycle with no incoming data and the keep-alive
timestamp set, `reset()` is invoked exactly when the sub-day seconds
component of the elapsed timedelta exceeds 60 (the code compares
`delta.seconds`, not the total elapsed time), and otherwise the cycle
leaves the state unchanged; conversely, a read that reaches the post-read
keep-alive check with a non-empty batch refreshes the keep-alive timestamp
and does not reset (a read ended early by a state-change event never
reaches that check). -/
theorem keep_alive_watchdog (st : State) (now ka : Int)
    (hka : st.keep_alive = some ka) :
    ((now - ka).emod 86400 > PL_KEEP_ALIVE_TIMEOUT →
      read_logs now st [] = (reset st false, [], []))
    ∧ (¬(now - ka).emod 86400 > PL_KEEP_ALIVE_TIMEOUT →
      read_logs now st [] = (st, [], []))
    ∧ (∀ (logs rem : List String), logs ≠ [] →
      readPost now st logs rem = ({ st with keep_alive := some now }, logs, rem)) := by
  refine ⟨?_, ?_, ?_⟩
  · intro h
    simp [read_logs, readLoop, readPost, flushMsg, hka, h]
  · intro h
    simp [read_logs, readLoop, readPost, flushMsg, hka, h]
  · intro logs rem h
    have : logs.length > 0 := List.length_pos.mpr h
    simp [readPost, this]

theorem keep_alive_watchdog_witness :
    ((100 : Int) - 0).emod 86400 > PL_KEEP_ALIVE_TIMEOUT
    ∧ read_logs 100 stalePoll [] = (reset stalePoll false, [], []) :=
  ⟨by decide, (keep_alive_watchdog stalePoll 100 0 rfl).1 (by decide)⟩

/-- C3: whatever the parser state, a read consuming a `state_change` frame
whose data line is `data: closed` invokes `reset()` within that same tick —
the resulting state is `IDLE` with the socket closed and nulled and the
poll url cleared — appends exactly one closed notice to the returned batch
(one more than the batch held before the event), and consumes no line
after the closed event. -/
theorem server_closed_stream (now : Int) (st : State) (nl nc : Bool)
    (msg : String) (logs : List String) (count : Int) (rest : List String) :
    readLoop now st nl nc msg logs count
        ("event: state_change\n" :: "data: closed\n" :: rest) =
      (reset st false, flushMsg logs msg ++ [closedNotice], rest)
    ∧ (reset st false).state = Mode.IDLE
    ∧ (reset st false).sock = false
    ∧ (reset st false).poll_url = none
    ∧ (flushMsg logs msg ++ [closedNotice]).count closedNotice =
        (flushMsg logs msg).count closedNotice + 1 := by
  obtain ⟨h1, h2, h3, -, -⟩ := reset_fields st false
  refine ⟨rfl, h3, h1, h2, ?_⟩
  simp

/-- C8: starting from `IDLE` (`start()` sets `INIT`), a first `query_logs`
that resolves an empty device list for the configured device group returns
no log batch, and by the end of the `update_logs` tick exactly one
assign-a-device notice has been written, the session is back in `IDLE`,
and no stream resource was created or opened (the only gateway call made
is `list_devices`). -/
theorem zero_device_start (gw : Gateway) (dg : String)
    (hdg : gw.deviceGroupId = some dg)
    (hdev : gw.listDevices = ([], none)) :
    (query_logs { LogManager.start initState with update_log_started := true } gw).1 =
      none
    ∧ update_logs (LogManager.start initState) gw =
        { initState with
            console := [STR_MESSAGE_LOG_STREAM_REQUESTED, STR_MESSAGE_ASSIGN_DEVICE,
                        STR_MESSAGE_LOG_STREAM_NOT_STARTED]
            gw_calls := ["list_devices"] }
    ∧ (update_logs (LogManager.start initState) gw).console.count
        STR_MESSAGE_ASSIGN_DEVICE = 1
    ∧ (update_logs (LogManager.start initState) gw).state = Mode.IDLE
    ∧ (update_logs (LogManager.start initState) gw).sock = false
    ∧ (update_logs (LogManager.start initState) gw).poll_url = none := by
  obtain ⟨now, lines, dgid, ldev, cls, ok, att⟩ := gw
  simp only [Gateway.mk.injEq] at hdg hdev
  subst hdg hdev
  refine ⟨rfl, rfl, ?_, rfl, rfl, rfl⟩
  have h2 : (update_logs (LogManager.start initState)
      ⟨now, lines, some dg, ([], none), cls, ok, att⟩).console =
      [STR_MESSAGE_LOG_STREAM_REQUESTED, STR_MESSAGE_ASSIGN_DEVICE,
       STR_MESSAGE_LOG_STREAM_NOT_STARTED] := rfl
  rw [h2]
  decide

theorem zero_device_start_witness :
    update_logs (LogManager.start initState)
        { gwHappy with listDevices := ([], none) } =
      { initState with
          console := [STR_MESSAGE_LOG_STREAM_REQUESTED, STR_MESSAGE_ASSIGN_DEVICE,
                      STR_MESSAGE_LOG_STREAM_NOT_STARTED]
          gw_calls := ["list_devices"] } :=
  (zero_device_start { gwHappy with listDevices := ([], none) } "dg" rfl rfl).2.1

theorem lastEqIdx_eq_none (l : String) (xs : List String) (h : l ∉ xs) :
    lastEqIdx l xs = none := by
  induction xs with
  | nil => rfl
  | cons x xs ih =>
      simp only [List.mem_cons, not_or] at h
      simp [lastEqIdx, ih h.2, logs_are_equal, h.1]

theorem lastEqIdx_append_of_notin (l : String) (ov fr : List String)
    (h : l ∉ fr) : lastEqIdx l (ov ++ fr) = lastEqIdx l ov := by
  induction ov with
  | nil => simp [lastEqIdx_eq_none l fr h, lastEqIdx]
  | cons x xs ih => simp [lastEqIdx, ih]

theorem lastEqIdx_getLast (l : String) :
    ∀ (ov : List String) (h : ov ≠ []), ov.getLast h = l →
      lastEqIdx l ov = some (ov.length - 1) := by
  intro ov
  induction ov with
  | nil => intro h; exact absurd rfl h
  | cons x xs ih =>
      intro h hlast
      cases xs with
      | nil =>
          simp only [List.getLast_singleton] at hlast
          simp [lastEqIdx, logs_are_equal, hlast]
      | cons y ys =>
          have h2 : (y :: ys) ≠ [] := by simp
          have hl2 : (y :: ys).getLast h2 = l := by
            rw [← hlast, List.getLast_cons h2]
          have hr := ih h2 hl2
          have hstep : lastEqIdx l (x :: y :: ys) =
              match lastEqIdx l (y :: ys) with
              | some j => some (j + 1)
              | none => if logs_are_equal l x then some 0 else none := rfl
          rw [hstep, hr]
          simp

theorem dedupStart_overlap (L : String) (ov fr : List String) (hov : ov ≠ [])
    (hlast : ov.getLast hov = L) (hL : L ≠ "") (hfr : L ∉ fr) :
    dedupStart (some L) (ov ++ fr) = ov.length := by
  have h1 : lastEqIdx L (ov ++ fr) = some (ov.length - 1) := by
    rw [lastEqIdx_append_of_notin L ov fr hfr]
    exact lastEqIdx_getLast L ov hov hlast
  have hpos : 0 < ov.length := List.length_pos.mpr hov
  simp [dedupStart, hL, h1]
  omega

theorem emitLogs_console :
    ∀ (l : List String) (st : State),
      (emitLogs st l).console = st.console ++ l.filter (fun s => s.length > 0) := by
  intro l
  induction l with
  | nil => intro st; simp [emitLogs]
  | cons log rest ih =>
      intro st
      by_cases h : log.length = 0
      · simp [emitLogs, h, ih, List.filter_cons]
      · simp [emitLogs, h, ih, write_to_console, List.filter_cons, Nat.pos_of_ne_zero h]

/-- C1: when the batch of one read starts with an overlap whose last
record is the last emitted log, the dedup walk of `update_logs` starts
exactly after the matched occurrence, so exactly the non-empty records
after the overlap are written to the console, the merged visible sequence
(previously shown records followed by the newly emitted ones) has no
duplicate record, and the emitted records keep the relative order of the
batch; when the last emitted log occurs nowhere in the batch every
non-empty record of the batch is emitted in order. -/
theorem log_deduplication (pre ov fr : List String) (L : String)
    (hov : ov ≠ []) (hlast : ov.getLast hov = L) (hL : L ≠ "")
    (hnd : ((pre ++ ov) ++ fr).Nodup) :
    visibleRecords (some L) (ov ++ fr) = fr.filter (fun s => s.length > 0)
    ∧ ((pre ++ ov) ++ visibleRecords (some L) (ov ++ fr)).Nodup
    ∧ (visibleRecords (some L) (ov ++ fr)).Sublist (ov ++ fr)
    ∧ (∀ (st : State) (batch : List String),
        (emitLogs st (batch.drop (dedupStart (some L) batch))).console =
          st.console ++ visibleRecords (some L) batch)
    ∧ (∀ (last : String) (batch : List String), last ∉ batch →
        visibleRecords (some last) batch = batch.filter (fun s => s.length > 0)) := by
  have hdisj : (pre ++ ov).Disjoint fr := (List.nodup_append.mp hnd).2.2
  have hLmem : L ∈ pre ++ ov := by
    rw [← hlast]
    exact List.mem_append_right pre (List.getLast_mem hov)
  have hfr : L ∉ fr := hdisj hLmem
  have hstart : dedupStart (some L) (ov ++ fr) = ov.length :=
    dedupStart_overlap L ov fr hov hlast hL hfr
  have hvis : visibleRecords (some L) (ov ++ fr) =
      fr.filter (fun s => s.length > 0) := by
    rw [visibleRecords, hstart, List.drop_left]
  refine ⟨hvis, ?_, ?_, ?_, ?_⟩
  · rw [hvis]
    rcases List.nodup_append.mp hnd with ⟨hnp, hnf, -⟩
    refine List.nodup_append.mpr ⟨hnp, hnf.sublist (List.filter_sublist fr), ?_⟩
    intro a ha haf
    exact hdisj ha (List.mem_of_mem_filter haf)
  · rw [visibleRecords]
    exact (List.filter_sublist _).trans (List.drop_sublist _ _)
  · intro st batch
    rw [emitLogs_console]
    rfl
  · intro last batch hmem
    have h0 : dedupStart (some last) batch = 0 := by
      by_cases hE : last = ""
      · simp [dedupStart, hE]
      · simp [dedupStart, hE, lastEqIdx_eq_none last batch hmem]
    rw [visibleRecords, h0, List.drop_zero]

theorem log_deduplication_witness :
    visibleRecords (some "b") (["a", "b"] ++ ["c", "d"]) =
      List.filter (fun s => s.length > 0) ["c", "d"]
    ∧ ((["p"] ++ ["a", "b"]) ++ visibleRecords (some "b") (["a", "b"] ++ ["c", "d"])).Nodup :=
  have h := log_deduplication ["p"] ["a", "b"] ["c", "d"] "b"
    (by simp) rfl (by simp) (by decide)
  ⟨h.1, h.2.1⟩

theorem invC5_reset (st : State) (r : Bool) : invC5 (reset st r) := by
  obtain ⟨h1, h2, h3, -, -⟩ := reset_fields st r
  unfold invC5
  rw [h1, h2, h3]
  simp

theorem frameOK_inv {st st2 : State} (h : invC5 st) (hf : frameOK st st2) :
    invC5 st2 := by
  rcases hf with ⟨h1, h2, h3⟩ | ⟨h1, h2, h3⟩
  · unfold invC5 at *
    rw [h1, h2, h3]
    exact h
  · unfold invC5
    rw [h1, h2, h3]
    simp

theorem frameOK_keepAlive (st : State) (k : Option Int) (st2 : State)
    (h : frameOK { st with keep_alive := k } st2) : frameOK st st2 := by
  unfold frameOK at *
  simpa using h

theorem readPost_frame (now : Int) (st : State) (logs rem : List String) :
    frameOK st (readPost now st logs rem).1 := by
  unfold frameOK
  by_cases h1 : logs.length > 0
  · simp [readPost, h1]
  · cases hka : st.keep_alive with
    | none => simp [readPost, h1, hka]
    | some ka =>
        by_cases h2 : (now - ka).emod 86400 > PL_KEEP_ALIVE_TIMEOUT
        · obtain ⟨a, b, c, -, -⟩ := reset_fields st false
          simp [readPost, h1, hka, h2, a, b, c]
        · simp [readPost, h1, hka, h2]

theorem readLoop_frame (now : Int) :
    ∀ (lines : List String) (st : State) (nl nc : Bool) (msg : String)
      (logs : List String) (count : Int),
      frameOK st (readLoop now st nl nc msg logs count lines).1 := by
  intro lines
  induction lines with
  | nil =>
      intro st nl nc msg logs count
      exact readPost_frame now st _ _
  | cons line rest ih =>
      intro st nl nc msg logs count
      rw [readLoop]
      split_ifs <;>
        first
          | exact ih _ _ _ _ _ _
          | exact readPost_frame now st _ _
          | exact frameOK_keepAlive st _ _ (ih _ _ _ _ _ _)
          | (obtain ⟨a, b, c, -, -⟩ := reset_fields st false
             exact Or.inr ⟨a, b, c⟩)
          | exact Or.inl ⟨rfl, rfl, rfl⟩

theorem check_imp_error_fields (st : State) (err : Option ImpError) :
    (check_imp_error st err).2.sock = st.sock
    ∧ (check_imp_error st err).2.state = st.state
    ∧ (check_imp_error st err).2.poll_url = st.poll_url := by
  cases err with
  | none => exact ⟨rfl, rfl, rfl⟩
  | some e =>
      by_cases h : e.code = INVALID_CREDENTIALS
      · simp [check_imp_error, h]
      · simp [check_imp_error, h]

theorem attachLoop_fields (dg : String) :
    ∀ (ds : List Device) (errs : List (Option ImpError)) (st : State),
      (attachLoop dg st ds errs).1.sock = st.sock
      ∧ (attachLoop dg st ds errs).1.state = st.state
      ∧ (attachLoop dg st ds errs).1.poll_url = st.poll_url := by
  intro ds
  induction ds with
  | nil => intro errs st; exact ⟨rfl, rfl, rfl⟩
  | cons d rest ih =>
      intro errs st
      by_cases h1 : d.devicegroupId = some dg
      · have hc := check_imp_error_fields
          { st with gw_calls := st.gw_calls ++ ["attach_device_to_log_stream"] }
          errs.headI
        simp only at hc
        by_cases h2 : (check_imp_error
            { st with gw_calls := st.gw_calls ++ ["attach_device_to_log_stream"] }
            errs.headI).1
        · simpa [attachLoop, h1, h2] using hc
        · have hr := ih errs.tail (check_imp_error
            { st with gw_calls := st.gw_calls ++ ["attach_device_to_log_stream"] }
            errs.headI).2
          simp only [attachLoop, h1, h2, if_true, if_false]
          refine ⟨?_, ?_, ?_⟩
          · simp [h2, hr.1, hc.1]
          · simp [h2, hr.2.1, hc.2.1]
          · simp [h2, hr.2.2, hc.2.2]
      · simpa [attachLoop, h1] using ih errs st

theorem emitLogs_fields :
    ∀ (l : List String) (st : State),
      (emitLogs st l).sock = st.sock ∧ (emitLogs st l).state = st.state
      ∧ (emitLogs st l).poll_url = st.poll_url := by
  intro l
  induction l with
  | nil => intro st; exact ⟨rfl, rfl, rfl⟩
  | cons x rest ih =>
      intro st
      by_cases h : x.length = 0
      · simpa [emitLogs, h] using ih st
      · simpa [emitLogs, h, write_to_console] using
          ih { write_to_console st x with last_shown_log := some x }

theorem queryOpenAttach_inv (st4 : State) (gw : Gateway) (dg : String)
    (logs : List String) (hsock : st4.sock = true)
    (hq : (queryOpenAttach st4 gw dg).1 = some logs) :
    invC5 (queryOpenAttach st4 gw dg).2.1 := by
  by_cases h3 : (attachLoop dg st4 st4.devices gw.attachResults).2 = true
  · obtain ⟨a1, a2, a3⟩ := attachLoop_fields dg st4.devices gw.attachResults st4
    unfold queryOpenAttach invC5
    simp only [h3]
    constructor
    · simp [write_to_console, a1, hsock]
    · intro _
      simp [write_to_console, a1, hsock]
  · simp [queryOpenAttach, h3] at hq

theorem queryOpenSock_inv (st2 : State) (gw : Gateway) (dg : String)
    (logs : List String) (hq : (queryOpenSock st2 gw dg).1 = some logs) :
    invC5 (queryOpenSock st2 gw dg).2.1 := by
  by_cases h2 : gw.openOk = true
  · unfold queryOpenSock at hq ⊢
    simp only [h2, not_true, if_false] at hq ⊢
    exact queryOpenAttach_inv _ gw dg logs rfl hq
  · simp [queryOpenSock, h2] at hq

theorem queryOpen_inv (st : State) (gw : Gateway) (dg : String)
    (logs : List String) (hq : (queryOpen st gw dg).1 = some logs) :
    invC5 (queryOpen st gw dg).2.1 := by
  by_cases h1 : (check_imp_error
      { st with gw_calls := st.gw_calls ++ ["create_log_stream"] }
      gw.createLogStream.2).1 = true
  · simp [queryOpen, h1] at hq
  · unfold queryOpen at hq ⊢
    simp only [h1, if_false] at hq ⊢
    exact queryOpenSock_inv _ gw dg logs hq

theorem queryListDevices_inv (st : State) (gw : Gateway) (dg : String)
    (logs : List String) (hq : (queryListDevices st gw dg).1 = some logs) :
    invC5 (queryListDevices st gw dg).2.1 := by
  unfold queryListDevices at hq ⊢
  by_cases he : (check_imp_error
      { st with gw_calls := st.gw_calls ++ ["list_devices"] }
      gw.listDevices.2).1 = true
  · rw [if_pos he] at hq
    simp at hq
  · rw [if_neg he] at hq ⊢
    by_cases hz : gw.listDevices.1.length = 0
    · rw [if_pos hz] at hq
      simp at hq
    · rw [if_neg hz] at hq ⊢
      exact queryOpen_inv _ gw dg logs hq

theorem query_logs_inv_some (st : State) (gw : Gateway) (logs : List String)
    (h : invC5 st) (hq : (query_logs st gw).1 = some logs) :
    invC5 (query_logs st gw).2.1 := by
  unfold query_logs at hq ⊢
  by_cases hs : st.sock = true
  · rw [if_pos hs]
    exact frameOK_inv h (readLoop_frame gw.now gw.lines st false false "" []
      PL_LOGS_MAX_PER_REQUEST)
  · rw [if_neg hs] at hq ⊢
    cases hdg : gw.deviceGroupId with
    | none =>
        rw [hdg] at hq
        exact Option.noConfusion hq
    | some dg =>
        rw [hdg] at hq
        have hq2 : (if st.poll_url = none then queryListDevices st gw dg
            else queryOpen st gw dg).1 = some logs := hq
        show invC5 (if st.poll_url = none then queryListDevices st gw dg
            else queryOpen st gw dg).2.1
        clear hq
        rename' hq2 => hq
        by_cases hp : st.poll_url = none
        · rw [if_pos hp] at hq ⊢
          exact queryListDevices_inv st gw dg logs hq
        · rw [if_neg hp] at hq ⊢
          exact queryOpen_inv st gw dg logs hq

theorem update_logs_inv (st : State) (gw : Gateway) (h : invC5 st) :
    invC5 (update_logs st gw) := by
  unfold update_logs
  by_cases hf : st.update_log_started
  · simpa [hf] using h
  · simp only [hf, if_false]
    have h0 : invC5 { st with update_log_started := true } := by
      unfold invC5 at h ⊢
      simpa using h
    rcases hq : (query_logs { st with update_log_started := true } gw).1 with - | logs
    · simp only [hq]
      have hr := invC5_reset (query_logs { st with update_log_started := true } gw).2.1 false
      unfold invC5 at hr ⊢
      simpa using hr
    · simp only [hq]
      have hqi := query_logs_inv_some { st with update_log_started := true } gw logs h0 hq
      obtain ⟨e1, e2, e3⟩ := emitLogs_fields
        ((logs).drop (dedupStart (query_logs { st with update_log_started := true } gw).2.1.last_shown_log logs))
        (query_logs { st with update_log_started := true } gw).2.1
      unfold invC5 at hqi ⊢
      constructor
      · simpa [e1, e2] using hqi.1
      · simpa [e1, e3] using hqi.2

theorem applyOp_inv (st : State) (op : Op) (hop : allowedOp op = true)
    (h : invC5 st) : invC5 (applyOp st op) := by
  cases op with
  | opStart =>
      show invC5 (LogManager.start st)
      by_cases hs : st.state = Mode.IDLE
      · unfold invC5 at h ⊢
        simp only [LogManager.start, hs, if_true, write_to_console]
        constructor
        · constructor
          · intro hsock
            have := h.1.mp hsock
            rw [hs] at this
            exact absurd this (by decide)
          · intro hP
            exact absurd hP (by decide)
        · exact h.2
      · simpa [LogManager.start, hs] using h
  | opStop r => simp [allowedOp] at hop
  | opReset r => exact invC5_reset st r
  | opQuery gw => simp [allowedOp] at hop
  | opUpdate gw => exact update_logs_inv st gw h

theorem runOps_inv :
    ∀ (ops : List Op) (st : State), invC5 st →
      (∀ op ∈ ops, allowedOp op = true) → invC5 (ops.foldl applyOp st) := by
  intro ops
  induction ops with
  | nil => intro st h _; simpa using h
  | cons op rest ih =>
      intro st h hall
      simp only [List.foldl_cons]
      exact ih (applyOp st op) (applyOp_inv st op (hall op (List.mem_cons_self op rest)) h)
        (fun o ho => hall o (List.mem_cons_of_mem op ho))

/-- C5 counterexample: the state reached by `start`, a fully successful
first `update_logs` tick (entering `POLL` with an open stream), and then
the public operation `stop()` has state `IDLE` while the stream handle is
still open — `stop` transitions out of `POLL` without closing or nulling
the connection, refuting the claimed invariant over the listed public
operations. -/
theorem session_stream_invariant_counterexample :
    (runOps [Op.opStart, Op.opUpdate gwHappy, Op.opStop false]).sock = true
    ∧ (runOps [Op.opStart, Op.opUpdate gwHappy, Op.opStop false]).state = Mode.IDLE := by
  decide

/-- C5 (amended): the invariant — stream handle open exactly in `POLL`,
and the poll token held only while the stream handle is open — holds for
every state reachable from the initial state through `start`, `reset` and
complete `update_logs` ticks.  It is not preserved by the remaining two
public operations: `stop()` leaves the socket open when it transitions out
of `POLL` (see the counterexample), and a bare `query_logs` can return
with the poll url set before the socket is opened, or with the socket open
and the state still `INIT` after an attach failure, states that only the
enclosing `update_logs` tick cleans up via `reset`. -/
theorem session_stream_invariant (ops : List Op)
    (h : ∀ op ∈ ops, allowedOp op = true) : invC5 (runOps ops) :=
  runOps_inv ops initState (by simp [invC5, initState]) h

theorem session_stream_invariant_witness :
    invC5 (runOps [Op.opStart, Op.opUpdate gwHappy]) :=
  session_stream_invariant [Op.opStart, Op.opUpdate gwHappy] (by decide)

end ImpDev
